import Mathlib

/-!
Verification of the ocr-service HTTP layer
(src/backend/rust-onnx/ocr-service/src/main.rs).

The development shallowly embeds the request handlers of the service as
pure Lean functions:

* JSON values (serde_json::Value) become the inductive `Json`, with numbers
  modelled as rationals.
* The recognize handler normalization (main.rs lines 171-181) becomes
  `regionToLine` / `recognizeBody`.
* The ocr2text handler (lines 277-319) becomes `ocr2text`.
* The draw handler (lines 199-274) becomes `lineRect` / `pageRects` /
  `drawRects` / `drawHandler`; the imageproc Rect::of_size assertions
  (width and height strictly positive) are modelled as `Except.error`.
* The model lifecycle handlers (lines 39-94) become `load_model`,
  `unload_model`, `model_status`, and the recognize control flow
  (lines 100-182) becomes `recognizeHandler` over an explicit model slot.

External capabilities (image decoding, JSON text parsing, float parsing,
the OCR engine itself) are parameters of the embedded handlers, matching
the specification, which treats them as opaque collaborators.
-/

namespace OcrService

/-- JSON values as handled by the service via serde_json. Numbers are
modelled as rationals. -/
inductive Json : Type where
  | null : Json
  | bool (b : Bool) : Json
  | num (q : ℚ) : Json
  | str (s : String) : Json
  | arr (elems : List Json) : Json
  | obj (fields : List (String × Json)) : Json

/-- Field access on objects, mirroring serde_json Value::get with a string
index: some value for an object that has the key, none otherwise. -/
def Json.key : Json → String → Option Json
  | .obj fields, k => fields.lookup k
  | _, _ => none

/-- Index access on arrays, mirroring serde_json Value::get with a usize
index: some element for an array long enough, none otherwise. -/
def Json.idx : Json → Nat → Option Json
  | .arr elems, i => elems[i]?
  | _, _ => none

/-- Mirrors serde_json Value::as_array. -/
def Json.asArr : Json → Option (List Json)
  | .arr elems => some elems
  | _ => none

/-- Mirrors serde_json Value::as_str. -/
def Json.asStr : Json → Option String
  | .str s => some s
  | _ => none

/-- Mirrors serde_json Value::as_f64 (numbers only). -/
def Json.asNum : Json → Option ℚ
  | .num q => some q
  | _ => none

/-- Mirrors serde_json Value::is_array. -/
def Json.isArr : Json → Bool
  | .arr _ => true
  | _ => false

/-- Mirrors serde_json Value::is_object. -/
def Json.isObj : Json → Bool
  | .obj _ => true
  | _ => false

/-! ### Engine-side data (oar_ocr result types, as consumed by main.rs) -/

/-- A 2D point of a detected bounding box (f32 coordinates, modelled as
rationals). -/
structure Point where
  x : ℚ
  y : ℚ

/-- The polygon emitted by the detector for one text region. -/
structure BoundingBox where
  points : List Point

/-- One detected region: polygon, optional recognized text, optional
confidence. -/
structure TextRegion where
  bounding_box : BoundingBox
  text : Option String
  confidence : Option ℚ

/-- The engine result for one input image (the fields of OAROCRResult that
the handler reads). -/
structure PageResult where
  text_regions : List TextRegion

/-! ### Result normalization (main.rs lines 171-181) -/

/-- Embeds the per-region body of the loop in recognize: the line
`[box_points, [text, score]]`, with absent text rendered as the empty
string and absent confidence as zero. -/
def regionToLine (region : TextRegion) : Json :=
  Json.arr
    [ Json.arr (region.bounding_box.points.map (fun p => Json.arr [Json.num p.x, Json.num p.y])),
      Json.arr [Json.str (region.text.getD ""), Json.num (region.confidence.getD 0)] ]

/-- Embeds the response body built at main.rs line 181: an object with a
single `result` key holding a one-element array of pages. -/
def recognizeBody (page : PageResult) : Json :=
  Json.obj [("result", Json.arr [Json.arr (page.text_regions.map regionToLine)])]

/-! ### Text extraction (main.rs lines 277-319) -/

/-- Embeds Rust str::trim as used at lines 295 and 309: strips leading and
trailing whitespace characters. -/
def rustTrim (s : String) : String :=
  String.mk (((s.data.dropWhile Char.isWhitespace).reverse.dropWhile Char.isWhitespace).reverse)

/-- Embeds the per-line extraction of ocr2text (lines 293-297 and 307-311):
read line[1][0] as a string and keep it when its trimmed form is nonempty. -/
def lineTexts (lines : List Json) : List String :=
  lines.filterMap (fun line =>
    match ((line.idx 1).bind (fun t => t.idx 0)).bind Json.asStr with
    | some txt => if (rustTrim txt).data.isEmpty then none else some txt
    | none => none)

/-- Embeds the multi-page detection condition at line 287: the result value
is a nonempty array whose first element is an object bearing a `page` key. -/
def multiPage (result_data : Json) : Bool :=
  match result_data.asArr with
  | some (p0 :: _) => p0.isObj && (p0.key "page").isSome
  | _ => false

/-- Embeds the extraction of one multi-page entry (lines 288-301): take the
`result` field owned by the page object, defaulting to null, and when it
is an array whose first element is an array, extract that line list. -/
def pageEntryTexts (page : Json) : List String :=
  let page_result := (page.key "result").getD Json.null
  if page_result.isArr then
    match page_result.idx 0 with
    | some first =>
      match first.asArr with
      | some lines => lineTexts lines
      | none => []
    | none => []
  else []

/-- Embeds the accumulation loop of ocr2text over the `result` value
(lines 284-315): multi-page entries are concatenated in order, otherwise
the first element of the result array is the line list of the single
page. -/
def allTextLines (result_data : Json) : List String :=
  if multiPage result_data then
    (result_data.asArr.getD []).flatMap pageEntryTexts
  else
    match result_data.asArr with
    | some (page0 :: _) =>
      match page0.asArr with
      | some lines => lineTexts lines
      | none => []
    | _ => []

/-- Responses of the ocr2text handler. -/
inductive TextResp : Type where
  | badRequest (msg : String) : TextResp
  | ok (body : Json) : TextResp

/-- Embeds the ocr2text handler (lines 277-319): a missing top-level
`result` key is a bad request; otherwise the accumulated lines are joined
with a newline and returned as the `text` field of the response body. -/
def ocr2text (body : Json) : TextResp :=
  match body.key "result" with
  | none => TextResp.badRequest "Invalid OCR result format"
  | some result_data =>
      TextResp.ok (Json.obj [("text", Json.str (String.intercalate "\n" (allTextLines result_data)))])

/-- Observation helper: the text string of a successful ocr2text response. -/
def ocr2textText (body : Json) : Option String :=
  match ocr2text body with
  | TextResp.ok j => (j.key "text").bind Json.asStr
  | TextResp.badRequest _ => none

/-! ### Overlay rendering (main.rs lines 199-274) -/

/-- Embeds the Rust cast `as i32` applied to an f64 coordinate: truncation
toward zero, saturating at the i32 bounds. -/
def f64toi32 (q : ℚ) : Int :=
  max (-(2 ^ 31)) (min (2 ^ 31 - 1) (q.num.tdiv q.den))

/-- An axis-aligned rectangle as built by imageproc Rect::at(...).of_size(...):
top-left corner plus width and height. -/
structure Rect where
  x : Int
  y : Int
  width : Nat
  height : Nat
deriving DecidableEq

/-- Embeds the xs extraction at line 245: for each polygon entry take
element 0 when it is a number, cast to i32. -/
def lineXs (pts : List Json) : List Int :=
  pts.filterMap (fun p =>
    (((p.asArr.bind (fun pa => pa[0]?)).bind Json.asNum).map f64toi32))

/-- Embeds the ys extraction at line 246: for each polygon entry take
element 1 when it is a number, cast to i32. -/
def lineYs (pts : List Json) : List Int :=
  pts.filterMap (fun p =>
    (((p.asArr.bind (fun pa => pa[1]?)).bind Json.asNum).map f64toi32))

/-- Embeds the per-line body of the draw loop (lines 242-254). A line whose
element 0 is not an array, or whose coordinate lists are empty, is skipped
(ok none). Otherwise the envelope rectangle of the cast coordinates is
built; the strictly-positive size assertions of Rect::of_size are modelled
as errors (a panic of the handler). -/
def lineRect (item : Json) : Except String (Option Rect) :=
  match item.idx 0 with
  | some box_points =>
    match box_points.asArr with
    | some pts =>
      let xs := lineXs pts
      let ys := lineYs pts
      if xs.isEmpty || ys.isEmpty then Except.ok none
      else
        match xs.min?, xs.max?, ys.min?, ys.max? with
        | some x_min, some x_max, some y_min, some y_max =>
          if x_max - x_min = 0 then Except.error "width must be strictly positive"
          else if y_max - y_min = 0 then Except.error "height must be strictly positive"
          else Except.ok (some (Rect.mk x_min y_min (x_max - x_min).toNat (y_max - y_min).toNat))
        | _, _, _, _ => Except.ok none
    | none => Except.ok none
  | none => Except.ok none

/-- Embeds the iteration of the draw loop over the line list (line 240):
one rectangle per line that yields one, in order; a panic aborts the
request. -/
def pageRects : List Json → Except String (List Rect)
  | [] => Except.ok []
  | item :: rest => do
    let r ← lineRect item
    let rs ← pageRects rest
    match r with
    | none => Except.ok rs
    | some rect => Except.ok (rect :: rs)

/-- Embeds lines 236-259 of the draw handler: locate the `result` value,
unwrap the one-page nesting when the result is a nonempty array (line 238),
and collect the rectangles drawn. A missing `result` key or a non-array
line list draws nothing. -/
def drawRects (parsed : Json) : Except String (List Rect) :=
  match parsed.key "result" with
  | none => Except.ok []
  | some lines =>
    let lines_arr :=
      match lines.asArr with
      | some (p0 :: _) => p0
      | _ => lines
    match lines_arr.asArr with
    | some items => pageRects items
    | none => Except.ok []

/-! ### The draw handler end to end -/

/-- An RGB pixel. -/
structure Rgb where
  r : Nat
  g : Nat
  b : Nat
deriving DecidableEq

/-- A decoded RGB image: dimensions plus row-major pixel data, as exposed
by ImageBuffer::as_raw. -/
structure Img where
  width : Nat
  height : Nat
  data : List Rgb
deriving DecidableEq

/-- Membership of a pixel on the one-pixel border of a rectangle, as drawn
by imageproc draw_hollow_rect_mut (right = left + width - 1, bottom =
top + height - 1). -/
def onRectBorder (rect : Rect) (x y : Int) : Bool :=
  decide ((rect.x ≤ x ∧ x ≤ rect.x + rect.width - 1 ∧ rect.y ≤ y ∧ y ≤ rect.y + rect.height - 1)
    ∧ (x = rect.x ∨ x = rect.x + rect.width - 1 ∨ y = rect.y ∨ y = rect.y + rect.height - 1))

/-- Embeds imageproc draw_hollow_rect_mut: recolor the border pixels of the
rectangle that lie inside the image. -/
def drawHollowRect (img : Img) (rect : Rect) (c : Rgb) : Img :=
  Img.mk img.width img.height
    (img.data.mapIdx (fun i p =>
      if onRectBorder rect ((i % img.width : Nat) : Int) ((i / img.width : Nat) : Int) then c else p))

/-- Responses of the draw handler. The PNG encoding step (lines 262-269) is
a deterministic function of the output pixels, so the body is modelled as
the output image itself. -/
inductive DrawResp : Type where
  | badRequest (msg : String) : DrawResp
  | panic (msg : String) : DrawResp
  | okPng (img : Img) : DrawResp

/-- Embeds the drop_score field handling at lines 203 and 215-218: the
value starts at 0.5 and is overwritten when the field is present and
parses as a float (parsing is an external capability). -/
def drawDropScore (parseF32 : String → Option ℚ) (dropField : Option String) : ℚ :=
  (dropField.bind parseF32).getD (1 / 2)

/-- Embeds the draw handler (lines 199-274) over its collected multipart
fields. Image decoding and JSON parsing are external capabilities passed
as functions. The drop_score value is computed exactly as in the source
and, as in the source, never read afterwards. -/
def drawHandler (decode : List Nat → Except String Img)
    (parseJson : String → Except String Json) (parseF32 : String → Option ℚ)
    (file : Option (List Nat)) (ocrField : Option String) (dropField : Option String) : DrawResp :=
  let _drop_score := drawDropScore parseF32 dropField
  match file with
  | none => DrawResp.badRequest "missing file"
  | some bytes =>
    match ocrField with
    | none => DrawResp.badRequest "missing ocr_result"
    | some ocr_json =>
      match decode bytes with
      | Except.error e => DrawResp.badRequest ("Failed to decode image: " ++ e)
      | Except.ok dyn_img =>
        match parseJson ocr_json with
        | Except.error e => DrawResp.badRequest ("Invalid ocr_result JSON: " ++ e)
        | Except.ok parsed =>
          match drawRects parsed with
          | Except.error e => DrawResp.panic e
          | Except.ok rects =>
            DrawResp.okPng (rects.foldl (fun im r => drawHollowRect im r (Rgb.mk 255 0 0)) dyn_img)

/-! ### Model lifecycle and the recognize handler (main.rs lines 39-94 and
100-182) -/

/-- The loaded OCR engine handle, observed only through predict: a batch of
one image yields a vector of page results or an engine error. -/
def Model : Type := Img → Except String (List PageResult)

/-- Responses of the load handler. -/
inductive LoadResp : Type where
  | ok (message : String) : LoadResp
  | internalError (msg : String) : LoadResp

/-- Embeds load_model (lines 41-61): construction (OAROCRBuilder::build,
an external capability whose outcome is passed in) either atomically
replaces the slot contents, or leaves the slot untouched and surfaces the
error message. The returned pair is (slot after the call, response). -/
def load_model (slot : Option Model) (buildResult : Except String Model) :
    Option Model × LoadResp :=
  match buildResult with
  | Except.ok m => (some m, LoadResp.ok "OCR model loaded successfully")
  | Except.error e => (slot, LoadResp.internalError ("Failed to build model: " ++ e))

/-- Embeds unload_model (lines 71-75): clear the slot and answer with a
fixed success message. -/
def unload_model (_slot : Option Model) : Option Model × LoadResp :=
  (none, LoadResp.ok "OCR model unloaded")

/-- Embeds model_status (lines 85-88): report whether the slot holds a
handle. -/
def model_status (slot : Option Model) : Bool :=
  slot.isSome

/-- Responses of the recognize handler. The panic case models the
unconditional vec_res.remove(0) at line 166 applied to an empty vector. -/
inductive RecResp : Type where
  | badRequest (msg : String) : RecResp
  | internalError (msg : String) : RecResp
  | panic : RecResp
  | ok (body : Json) : RecResp

/-- The observable outcome of one recognize request: the response, whether
the predict task was submitted to the worker pool, and the slot contents
after the request (the handler only ever reads the slot). -/
structure RecOutcome : Type where
  resp : RecResp
  predictCalled : Bool
  slotAfter : Option Model

/-- Embeds the recognize handler (lines 100-182) over its collected
multipart file field: missing file, format probe (infer_image_format) and
decode failures are bad requests; an empty slot is the model-not-loaded
bad request, reached without submitting predict work; otherwise predict
runs on the one-image batch and the first page of its result vector is
normalized into the response body. -/
def recognizeHandler (formatOk : List Nat → Bool) (decode : List Nat → Except String Img)
    (slot : Option Model) (file : Option (List Nat)) : RecOutcome :=
  match file with
  | none => RecOutcome.mk (RecResp.badRequest "missing file") false slot
  | some bytes =>
    if formatOk bytes then
      match decode bytes with
      | Except.error e =>
        RecOutcome.mk (RecResp.badRequest ("Failed to decode image: " ++ e)) false slot
      | Except.ok dyn_img =>
        match slot with
        | none => RecOutcome.mk (RecResp.badRequest "Model not loaded") false slot
        | some arc_ocr =>
          match arc_ocr dyn_img with
          | Except.error e =>
            RecOutcome.mk (RecResp.internalError ("OCR error: " ++ e)) true slot
          | Except.ok [] => RecOutcome.mk RecResp.panic true slot
          | Except.ok (results :: _) => RecOutcome.mk (RecResp.ok (recognizeBody results)) true slot
    else
      RecOutcome.mk
        (RecResp.badRequest "Unsupported file type or PDF is not supported by Rust service yet")
        false slot

/-! ### Concrete sample values used by witnesses and counterexamples -/

/-- A one-pixel decoded image. -/
def imgEx : Img := Img.mk 1 1 [Rgb.mk 0 0 0]

/-- A format probe that accepts every byte buffer. -/
def formatOkEx : List Nat → Bool := fun _ => true

/-- A decoder that always yields the one-pixel image. -/
def decodeEx : List Nat → Except String Img := fun _ => Except.ok imgEx

/-- A model whose predict yields an empty result vector. -/
def modelEmptyEx : Model := fun _ => Except.ok []

/-- A region recognized as the text a. -/
def regionA : TextRegion :=
  TextRegion.mk (BoundingBox.mk [Point.mk 1 2, Point.mk 3 2, Point.mk 3 4, Point.mk 1 4])
    (some "a") (some (9 / 10))

/-- A region recognized as a single-space text. -/
def regionBlank : TextRegion :=
  TextRegion.mk (BoundingBox.mk [Point.mk 5 6, Point.mk 7 6, Point.mk 7 8, Point.mk 5 8])
    (some " ") (some (4 / 5))

/-- A one-region page. -/
def pageEx : PageResult := PageResult.mk [regionA]

/-- A page whose second region has whitespace-only text. -/
def pageCex : PageResult := PageResult.mk [regionA, regionBlank]

/-! ### Claim theorems -/

/-- C3: noninterference of drop_score. Two draw requests that differ only
in the drop_score field (present or absent, any parseable value, under any
float parser) produce identical responses: the handler parses the field
into a local value and never reads it, so no line is ever filtered by it. -/
theorem draw_drop_score_noninterference (decode : List Nat → Except String Img)
    (parseJson : String → Except String Json) (parseF32 : String → Option ℚ)
    (file : Option (List Nat)) (ocrField : Option String)
    (dropField₁ dropField₂ : Option String) :
    drawHandler decode parseJson parseF32 file ocrField dropField₁
      = drawHandler decode parseJson parseF32 file ocrField dropField₂ := rfl

/-- C7: idempotence of unload. From any starting slot state, unload
succeeds and empties the slot; a second unload succeeds again, and
model_status reports false after either call. -/
theorem unload_idempotent_status_false (slot : Option Model) :
    (unload_model slot).2 = LoadResp.ok "OCR model unloaded"
    ∧ (unload_model slot).1 = none
    ∧ (unload_model (unload_model slot).1).2 = LoadResp.ok "OCR model unloaded"
    ∧ (unload_model (unload_model slot).1).1 = none
    ∧ model_status (unload_model slot).1 = false
    ∧ model_status (unload_model (unload_model slot).1).1 = false :=
  ⟨rfl, rfl, rfl, rfl, rfl, rfl⟩

/-- C5: a recognize request whose file is present, passes the format
probe and decodes, but meets an empty model slot, answers the
model-not-loaded bad request, submits no predict task, and leaves the
slot unchanged (empty). -/
theorem recognize_empty_slot_no_work (formatOk : List Nat → Bool)
    (decode : List Nat → Except String Img) (bytes : List Nat) (img : Img)
    (hfmt : formatOk bytes = true) (hdec : decode bytes = Except.ok img) :
    recognizeHandler formatOk decode none (some bytes)
      = RecOutcome.mk (RecResp.badRequest "Model not loaded") false none := by
  simp [recognizeHandler, hfmt, hdec]

/-- Witness for C5 at concrete inputs. -/
theorem recognize_empty_slot_no_work_witness :
    formatOkEx [7] = true
    ∧ decodeEx [7] = Except.ok imgEx
    ∧ recognizeHandler formatOkEx decodeEx none (some [7])
      = RecOutcome.mk (RecResp.badRequest "Model not loaded") false none :=
  ⟨rfl, rfl, recognize_empty_slot_no_work formatOkEx decodeEx [7] imgEx rfl rfl⟩

/-- C6: atomicity of load. A failed build leaves the slot exactly as it
was and surfaces the build error message; a successful build replaces the
slot with the new handle; and after a failed build on an empty slot, a
recognize request that validates and decodes still fails with the
model-not-loaded response and schedules no predict work. -/
theorem load_failure_atomic (slot : Option Model) (e : String) (m : Model)
    (formatOk : List Nat → Bool) (decode : List Nat → Except String Img)
    (bytes : List Nat) (img : Img)
    (hfmt : formatOk bytes = true) (hdec : decode bytes = Except.ok img) :
    (load_model slot (Except.error e)).1 = slot
    ∧ (load_model slot (Except.error e)).2
        = LoadResp.internalError ("Failed to build model: " ++ e)
    ∧ (load_model slot (Except.ok m)).1 = some m
    ∧ (slot = none →
        (recognizeHandler formatOk decode (load_model slot (Except.error e)).1
            (some bytes)).resp = RecResp.badRequest "Model not loaded"
        ∧ (recognizeHandler formatOk decode (load_model slot (Except.error e)).1
            (some bytes)).predictCalled = false) := by
  refine ⟨rfl, rfl, rfl, ?_⟩
  rintro rfl
  constructor <;> simp [recognizeHandler, load_model, hfmt, hdec]

/-- Witness for C6 at concrete inputs. -/
theorem load_failure_atomic_witness :
    formatOkEx [7] = true
    ∧ decodeEx [7] = Except.ok imgEx
    ∧ (load_model none (Except.error "missing detector artifact")).1 = none
    ∧ (load_model none (Except.error "missing detector artifact")).2
        = LoadResp.internalError "Failed to build model: missing detector artifact"
    ∧ (load_model none (Except.ok modelEmptyEx)).1 = some modelEmptyEx
    ∧ ((none : Option Model) = none →
        (recognizeHandler formatOkEx decodeEx
            (load_model none (Except.error "missing detector artifact")).1
            (some [7])).resp = RecResp.badRequest "Model not loaded"
        ∧ (recognizeHandler formatOkEx decodeEx
            (load_model none (Except.error "missing detector artifact")).1
            (some [7])).predictCalled = false) := by
  have h := load_failure_atomic none "missing detector artifact" modelEmptyEx
    formatOkEx decodeEx [7] imgEx rfl rfl
  exact ⟨rfl, rfl, h.1, h.2.1, h.2.2.1, h.2.2.2⟩

/-- C9: the recognize success path is total only when predict yields at
least one page result. If predict answers Ok with the empty vector the
handler panics (vec remove at index zero); if it answers Ok with a
nonempty vector the handler responds with the normalized first page. -/
theorem recognize_requires_nonempty_predict (formatOk : List Nat → Bool)
    (decode : List Nat → Except String Img) (bytes : List Nat) (img : Img) (m : Model)
    (hfmt : formatOk bytes = true) (hdec : decode bytes = Except.ok img) :
    (m img = Except.ok [] →
      recognizeHandler formatOk decode (some m) (some bytes)
        = RecOutcome.mk RecResp.panic true (some m))
    ∧ (∀ page rest, m img = Except.ok (page :: rest) →
        recognizeHandler formatOk decode (some m) (some bytes)
          = RecOutcome.mk (RecResp.ok (recognizeBody page)) true (some m)) := by
  constructor
  · intro hp
    simp [recognizeHandler, hfmt, hdec, hp]
  · intro page rest hp
    simp [recognizeHandler, hfmt, hdec, hp]

/-- Witness for C9 at concrete inputs: a model whose predict yields the
empty vector makes the handler panic. -/
theorem recognize_requires_nonempty_predict_witness :
    formatOkEx [7] = true
    ∧ decodeEx [7] = Except.ok imgEx
    ∧ modelEmptyEx imgEx = Except.ok []
    ∧ recognizeHandler formatOkEx decodeEx (some modelEmptyEx) (some [7])
      = RecOutcome.mk RecResp.panic true (some modelEmptyEx) :=
  ⟨rfl, rfl, rfl,
    (recognize_requires_nonempty_predict formatOkEx decodeEx [7] imgEx modelEmptyEx
      rfl rfl).1 rfl⟩

/-- C1: shape of the recognize response body. For any engine page, the
body is exactly an object with one `result` key holding a one-element page
array; the page has one line per region, and the line at any index i is
the pair of the point list of the i-th region and of its text (empty string
when absent) and confidence (zero when absent) — so lines keep the
emission order of the engine with no re-sorting. -/
theorem recognize_response_shape (page : PageResult) (i : Nat) (r : TextRegion)
    (h : page.text_regions[i]? = some r) :
    ∃ lines : List Json,
      recognizeBody page = Json.obj [("result", Json.arr [Json.arr lines])]
      ∧ lines.length = page.text_regions.length
      ∧ lines[i]? = some (Json.arr
          [ Json.arr (r.bounding_box.points.map (fun p => Json.arr [Json.num p.x, Json.num p.y])),
            Json.arr [Json.str (r.text.getD ""), Json.num (r.confidence.getD 0)] ]) := by
  refine ⟨page.text_regions.map regionToLine, rfl, by simp, ?_⟩
  rw [List.getElem?_map, h]
  rfl

/-- Witness for C1 at a concrete one-region page. -/
theorem recognize_response_shape_witness :
    pageEx.text_regions[0]? = some regionA
    ∧ ∃ lines : List Json,
        recognizeBody pageEx = Json.obj [("result", Json.arr [Json.arr lines])]
        ∧ lines.length = pageEx.text_regions.length
        ∧ lines[0]? = some (Json.arr
            [ Json.arr (regionA.bounding_box.points.map
                (fun p => Json.arr [Json.num p.x, Json.num p.y])),
              Json.arr [Json.str (regionA.text.getD ""),
                Json.num (regionA.confidence.getD 0)] ]) :=
  ⟨rfl, recognize_response_shape pageEx 0 regionA rfl⟩

/-- C8: ocr2text fails exactly when the body lacks a top-level result key
(with the invalid-format bad request); every body holding the key answers
success with the accumulated line texts joined by newline, and an empty
accumulation yields the empty string as a success. -/
theorem ocr2text_fails_iff_missing_result (body : Json) :
    ((∃ msg, ocr2text body = TextResp.badRequest msg) ↔ body.key "result" = none)
    ∧ (∀ result_data, body.key "result" = some result_data →
        ocr2textText body = some (String.intercalate "\n" (allTextLines result_data))
        ∧ (allTextLines result_data = [] → ocr2textText body = some "")) := by
  constructor
  · constructor
    · rintro ⟨msg, hmsg⟩
      cases hk : body.key "result" with
      | none => rfl
      | some rd => rw [ocr2text, hk] at hmsg; cases hmsg
    · intro hk
      exact ⟨"Invalid OCR result format", by rw [ocr2text, hk]⟩
  · intro result_data hk
    constructor
    · rw [ocr2textText, ocr2text, hk]
      rfl
    · intro he
      rw [ocr2textText, ocr2text, hk]
      show some (String.intercalate "\n" (allTextLines result_data)) = some ""
      rw [he]
      rfl

/-- Witness for C8 at a concrete body whose result key holds an empty
array: the accumulation is empty and the response text is the empty
string. -/
theorem ocr2text_fails_iff_missing_result_witness :
    (Json.obj [("result", Json.arr [])]).key "result" = some (Json.arr [])
    ∧ allTextLines (Json.arr []) = []
    ∧ ocr2textText (Json.obj [("result", Json.arr [])]) = some "" :=
  ⟨rfl, rfl,
    ((ocr2text_fails_iff_missing_result (Json.obj [("result", Json.arr [])])).2
      (Json.arr []) rfl).2 rfl⟩

/-- Helper: extracting line texts from normalized regions keeps exactly
the texts whose trimmed form is nonempty. -/
theorem lineTexts_map_regionToLine (rs : List TextRegion) :
    lineTexts (rs.map regionToLine)
      = rs.filterMap (fun r =>
          if (rustTrim (r.text.getD "")).data.isEmpty then none
          else some (r.text.getD "")) := by
  rw [lineTexts, List.filterMap_map]
  rfl

/-- C2 counterexample: the round trip does not return all recognized texts
joined by newline. For the concrete page whose regions carry the texts a
and a single space, the claim predicts the joined string but the service
answers only the first text: ocr2text silently drops every line whose
trimmed text is empty. -/
theorem roundtrip_drops_blank_lines_cex :
    ocr2textText (recognizeBody pageCex) = some "a"
    ∧ String.intercalate "\n" ["a", " "] = "a\n "
    ∧ ("a" : String) ≠ "a\n " :=
  ⟨rfl, rfl, by decide⟩

/-- C2 amended: feeding ocr2text the recognize response body succeeds and
returns the texts of the regions whose trimmed text is nonempty, joined by
newline, in region order (regions with absent or whitespace-only text are
omitted). -/
theorem roundtrip_nonblank_texts (page : PageResult) :
    ocr2textText (recognizeBody page)
      = some (String.intercalate "\n" (page.text_regions.filterMap (fun r =>
          if (rustTrim (r.text.getD "")).data.isEmpty then none
          else some (r.text.getD "")))) := by
  show some (String.intercalate "\n" (lineTexts (page.text_regions.map regionToLine))) = _
  rw [lineTexts_map_regionToLine]

/-- Helper: a fold of min over a list of copies of c, started at c, is c. -/
theorem foldl_min_const (c : Int) :
    ∀ l : List Int, (∀ a ∈ l, a = c) → l.foldl min c = c
  | [], _ => rfl
  | a :: l, h => by
    have ha : a = c := h a (List.mem_cons_self a l)
    rw [List.foldl_cons, ha, min_self]
    exact foldl_min_const c l (fun b hb => h b (List.mem_cons_of_mem a hb))

/-- Helper: a fold of max over a list of copies of c, started at c, is c. -/
theorem foldl_max_const (c : Int) :
    ∀ l : List Int, (∀ a ∈ l, a = c) → l.foldl max c = c
  | [], _ => rfl
  | a :: l, h => by
    have ha : a = c := h a (List.mem_cons_self a l)
    rw [List.foldl_cons, ha, max_self]
    exact foldl_max_const c l (fun b hb => h b (List.mem_cons_of_mem a hb))

/-- Helper: min? and max? of a nonempty constant list are that constant. -/
theorem min?_max?_const (c : Int) (l : List Int) (hne : l ≠ [])
    (h : ∀ a ∈ l, a = c) : l.min? = some c ∧ l.max? = some c := by
  cases l with
  | nil => exact absurd rfl hne
  | cons a as =>
    have ha : a = c := h a (List.mem_cons_self a as)
    have has : ∀ b ∈ as, b = c := fun b hb => h b (List.mem_cons_of_mem a hb)
    constructor
    · show some (as.foldl min a) = some c
      rw [ha, foldl_min_const c as has]
    · show some (as.foldl max a) = some c
      rw [ha, foldl_max_const c as has]

/-- Helper: a filterMap whose function succeeds everywhere is a map. -/
theorem filterMap_all_some {α β : Type} (f : α → Option β) (g : α → β) :
    ∀ l : List α, (∀ a ∈ l, f a = some (g a)) → l.filterMap f = l.map g
  | [], _ => rfl
  | a :: l, h => by
    rw [List.filterMap_cons, h a (List.mem_cons_self a l), List.map_cons,
      filterMap_all_some f g l (fun b hb => h b (List.mem_cons_of_mem a hb))]

/-- Helper: evaluation of lineRect on a line whose polygon yields nonempty
coordinate lists, phrased through their min? and max?. -/
theorem lineRect_of_minmax (pts tail : List Json) (x_min x_max y_min y_max : Int)
    (hx : (lineXs pts).min? = some x_min) (hX : (lineXs pts).max? = some x_max)
    (hy : (lineYs pts).min? = some y_min) (hY : (lineYs pts).max? = some y_max) :
    lineRect (Json.arr (Json.arr pts :: tail))
      = (if x_max - x_min = 0 then Except.error "width must be strictly positive"
         else if y_max - y_min = 0 then Except.error "height must be strictly positive"
         else Except.ok (some
           (Rect.mk x_min y_min (x_max - x_min).toNat (y_max - y_min).toNat))) := by
  obtain ⟨x0, xs', hxs⟩ : ∃ a l, lineXs pts = a :: l := by
    cases hl : lineXs pts with
    | nil => rw [hl] at hx; cases hx
    | cons a l => exact ⟨a, l, rfl⟩
  obtain ⟨y0, ys', hys⟩ : ∃ a l, lineYs pts = a :: l := by
    cases hl : lineYs pts with
    | nil => rw [hl] at hy; cases hy
    | cons a l => exact ⟨a, l, rfl⟩
  rw [hxs] at hx hX
  rw [hys] at hy hY
  have hx' : xs'.foldl min x0 = x_min := by injection hx
  have hX' : xs'.foldl max x0 = x_max := by injection hX
  have hy' : ys'.foldl min y0 = y_min := by injection hy
  have hY' : ys'.foldl max y0 = y_max := by injection hY
  subst hx' hX' hy' hY'
  unfold lineRect
  simp only [Json.idx, Json.asArr, List.getElem?_cons_zero, hxs, hys]
  rfl

/-- Helper: a filterMap of mapped options is nonempty as soon as one entry
succeeds. -/
theorem filterMap_map_isSome_ne_nil {α β γ : Type} (f : α → Option β) (g : β → γ)
    (l : List α) (a : α) (ha : a ∈ l) (h : (f a).isSome = true) :
    l.filterMap (fun x => (f x).map g) ≠ [] := by
  obtain ⟨b, hb⟩ := Option.isSome_iff_exists.mp h
  have hmem : g b ∈ l.filterMap (fun x => (f x).map g) :=
    List.mem_filterMap.mpr ⟨a, ha, by rw [hb]; rfl⟩
  intro hnil
  rw [hnil] at hmem
  cases hmem

/-- C10: a degenerate box panics the draw handler. For a line whose
polygon entries are all numeric pairs, if the points all share one x
coordinate or all share one y coordinate, the computed rectangle size is
zero, the strictly-positive size precondition of the rectangle constructor
is violated, and processing the line aborts instead of drawing. -/
theorem draw_shared_coordinate_panics (pts tail : List Json)
    (hne : pts ≠ [])
    (hnum : pts.all (fun p =>
        ((p.asArr.bind (fun pa => pa[0]?)).bind Json.asNum).isSome
        && ((p.asArr.bind (fun pa => pa[1]?)).bind Json.asNum).isSome) = true)
    (hdeg : (∃ c, pts.all (fun p =>
          ((p.asArr.bind (fun pa => pa[0]?)).bind Json.asNum) == some c) = true)
        ∨ (∃ c, pts.all (fun p =>
          ((p.asArr.bind (fun pa => pa[1]?)).bind Json.asNum) == some c) = true)) :
    ∃ e, lineRect (Json.arr (Json.arr pts :: tail)) = Except.error e := by
  rw [List.all_eq_true] at hnum
  have hxn : ∀ p ∈ pts, ((p.asArr.bind (fun pa => pa[0]?)).bind Json.asNum).isSome = true := by
    intro p hp
    have h := hnum p hp
    rw [Bool.and_eq_true] at h
    exact h.1
  have hyn : ∀ p ∈ pts, ((p.asArr.bind (fun pa => pa[1]?)).bind Json.asNum).isSome = true := by
    intro p hp
    have h := hnum p hp
    rw [Bool.and_eq_true] at h
    exact h.2
  obtain ⟨p0, rest, rfl⟩ : ∃ a l, pts = a :: l := by
    cases pts with
    | nil => exact absurd rfl hne
    | cons a l => exact ⟨a, l, rfl⟩
  have hxne : lineXs (p0 :: rest) ≠ [] :=
    filterMap_map_isSome_ne_nil _ f64toi32 (p0 :: rest) p0 (List.mem_cons_self p0 rest)
      (hxn p0 (List.mem_cons_self p0 rest))
  have hyne : lineYs (p0 :: rest) ≠ [] :=
    filterMap_map_isSome_ne_nil _ f64toi32 (p0 :: rest) p0 (List.mem_cons_self p0 rest)
      (hyn p0 (List.mem_cons_self p0 rest))
  obtain ⟨x0, xs', hxs⟩ : ∃ a l, lineXs (p0 :: rest) = a :: l := by
    cases hl : lineXs (p0 :: rest) with
    | nil => exact absurd hl hxne
    | cons a l => exact ⟨a, l, rfl⟩
  obtain ⟨y0, ys', hys⟩ : ∃ a l, lineYs (p0 :: rest) = a :: l := by
    cases hl : lineYs (p0 :: rest) with
    | nil => exact absurd hl hyne
    | cons a l => exact ⟨a, l, rfl⟩
  have hxmin : (lineXs (p0 :: rest)).min? = some (xs'.foldl min x0) := by rw [hxs]; rfl
  have hxmax : (lineXs (p0 :: rest)).max? = some (xs'.foldl max x0) := by rw [hxs]; rfl
  have hymin : (lineYs (p0 :: rest)).min? = some (ys'.foldl min y0) := by rw [hys]; rfl
  have hymax : (lineYs (p0 :: rest)).max? = some (ys'.foldl max y0) := by rw [hys]; rfl
  rcases hdeg with ⟨c, hall⟩ | ⟨c, hall⟩
  · rw [List.all_eq_true] at hall
    have hconst : lineXs (p0 :: rest) = (p0 :: rest).map (fun _ => f64toi32 c) := by
      apply filterMap_all_some
      intro p hp
      have := hall p hp
      rw [beq_iff_eq] at this
      rw [this]
      rfl
    have hmm := min?_max?_const (f64toi32 c) (lineXs (p0 :: rest)) hxne (by
      intro a ha
      rw [hconst] at ha
      obtain ⟨p, _, rfl⟩ := List.mem_map.mp ha
      rfl)
    rw [lineRect_of_minmax (p0 :: rest) tail (f64toi32 c) (f64toi32 c)
      (ys'.foldl min y0) (ys'.foldl max y0) hmm.1 hmm.2 hymin hymax]
    rw [if_pos (by omega)]
    exact ⟨"width must be strictly positive", rfl⟩
  · rw [List.all_eq_true] at hall
    have hconst : lineYs (p0 :: rest) = (p0 :: rest).map (fun _ => f64toi32 c) := by
      apply filterMap_all_some
      intro p hp
      have := hall p hp
      rw [beq_iff_eq] at this
      rw [this]
      rfl
    have hmm := min?_max?_const (f64toi32 c) (lineYs (p0 :: rest)) hyne (by
      intro a ha
      rw [hconst] at ha
      obtain ⟨p, _, rfl⟩ := List.mem_map.mp ha
      rfl)
    rw [lineRect_of_minmax (p0 :: rest) tail (xs'.foldl min x0) (xs'.foldl max x0)
      (f64toi32 c) (f64toi32 c) hxmin hxmax hmm.1 hmm.2]
    by_cases hzero : xs'.foldl max x0 - xs'.foldl min x0 = 0
    · rw [if_pos hzero]
      exact ⟨"width must be strictly positive", rfl⟩
    · rw [if_neg hzero, if_pos (by omega)]
      exact ⟨"height must be strictly positive", rfl⟩

/-- Witness for C10: a two-point polygon whose points share x = 1. -/
theorem draw_shared_coordinate_panics_witness :
    ([Json.arr [Json.num 1, Json.num 2], Json.arr [Json.num 1, Json.num 5]] ≠ ([] : List Json))
    ∧ ∃ e, lineRect (Json.arr (Json.arr
        [Json.arr [Json.num 1, Json.num 2], Json.arr [Json.num 1, Json.num 5]]
        :: [Json.arr [Json.str "t", Json.num (1 / 2)]])) = Except.error e :=
  ⟨List.cons_ne_nil _ _,
    (draw_shared_coordinate_panics
      [Json.arr [Json.num 1, Json.num 2], Json.arr [Json.num 1, Json.num 5]]
      [Json.arr [Json.str "t", Json.num (1 / 2)]]
      (List.cons_ne_nil _ _) rfl (Or.inl ⟨1, rfl⟩))⟩

/-- A line whose nonempty numeric polygon is the single point (5, 5). -/
def degenLineJson : Json :=
  Json.arr [Json.arr [Json.arr [Json.num 5, Json.num 5]], Json.arr [Json.str "t", Json.num 1]]

/-- A single-page result holding only the degenerate line. -/
def degenResultJson : Json :=
  Json.obj [("result", Json.arr [Json.arr [degenLineJson]])]

/-- C4 counterexample: for a line whose polygon is the nonempty numeric
point list [(5, 5)], no rectangle is drawn: the computed envelope has zero
width, the rectangle constructor precondition is violated, and the whole
draw request panics instead of returning an image. -/
theorem draw_degenerate_line_panics_cex :
    drawRects degenResultJson = Except.error "width must be strictly positive"
    ∧ drawHandler decodeEx (fun _ => Except.ok degenResultJson) (fun _ => none)
        (some [7]) (some "ocr") none = DrawResp.panic "width must be strictly positive" :=
  ⟨rfl, rfl⟩

/-- Helper: on a page none of whose lines panics, the draw loop emits, in
line order, exactly the rectangle of each line that yields one; lines that
are skipped (malformed entries or empty coordinate lists) contribute
nothing. -/
theorem pageRects_eq_filterMap :
    ∀ items : List Json, (∀ item ∈ items, (lineRect item).isOk = true) →
      pageRects items = Except.ok (items.filterMap (fun item =>
        match lineRect item with
        | Except.ok o => o
        | Except.error _ => none))
  | [], _ => rfl
  | item :: rest, h => by
    have hok := h item (List.mem_cons_self item rest)
    have ih := pageRects_eq_filterMap rest (fun it hit => h it (List.mem_cons_of_mem item hit))
    cases hlr : lineRect item with
    | error e => rw [hlr] at hok; cases hok
    | ok o =>
      show (do
        let rOpt ← lineRect item
        let rs ← pageRects rest
        match rOpt with
        | none => Except.ok rs
        | some rect => Except.ok (rect :: rs)) = _
      rw [hlr, ih, List.filterMap_cons]
      cases o with
      | none => rw [hlr]; exact rfl
      | some r => rw [hlr]; exact rfl

/-- C4 amended: every line whose polygon is a nonempty array of numeric
points with at least two distinct cast x values and two distinct cast y
values yields exactly one rectangle positioned at the minimum x and y of
the cast coordinates and sized by their maxima minus minima, whatever its
score field holds (first conjunct, for an arbitrary such line). On any
page none of whose lines panics — qualifying, malformed and skipped lines
freely mixed — the draw loop output is exactly the per-line rectangles in
line order, skipped lines contributing nothing (second conjunct), and the
handler paints those rectangles in the fixed color onto a copy of the
decoded image (third conjunct). Lines whose envelope has zero width or
height instead panic the whole request (see the counterexample). -/
theorem draw_envelope_rect_per_line (items : List Json)
    (hsafe : ∀ item ∈ items, (lineRect item).isOk = true) :
    (∀ pts tail x_min x_max y_min y_max,
        (lineXs pts).min? = some x_min → (lineXs pts).max? = some x_max →
        (lineYs pts).min? = some y_min → (lineYs pts).max? = some y_max →
        x_min < x_max → y_min < y_max →
        lineRect (Json.arr (Json.arr pts :: tail))
          = Except.ok (some
              (Rect.mk x_min y_min (x_max - x_min).toNat (y_max - y_min).toNat)))
    ∧ drawRects (Json.obj [("result", Json.arr [Json.arr items])])
        = Except.ok (items.filterMap (fun item =>
            match lineRect item with
            | Except.ok o => o
            | Except.error _ => none))
    ∧ ∀ (decode : List Nat → Except String Img) (parseJson : String → Except String Json)
        (parseF32 : String → Option ℚ) (bytes : List Nat) (img : Img)
        (ocr_json : String) (dropField : Option String),
        decode bytes = Except.ok img →
        parseJson ocr_json = Except.ok (Json.obj [("result", Json.arr [Json.arr items])]) →
        drawHandler decode parseJson parseF32 (some bytes) (some ocr_json) dropField
          = DrawResp.okPng
              ((items.filterMap (fun item =>
                  match lineRect item with
                  | Except.ok o => o
                  | Except.error _ => none)).foldl
                (fun im r => drawHollowRect im r (Rgb.mk 255 0 0)) img) := by
  have hline : ∀ (pts tail : List Json) (x_min x_max y_min y_max : Int),
      (lineXs pts).min? = some x_min → (lineXs pts).max? = some x_max →
      (lineYs pts).min? = some y_min → (lineYs pts).max? = some y_max →
      x_min < x_max → y_min < y_max →
      lineRect (Json.arr (Json.arr pts :: tail))
        = Except.ok (some
            (Rect.mk x_min y_min (x_max - x_min).toNat (y_max - y_min).toNat)) := by
    intro pts tail x_min x_max y_min y_max hx hX hy hY hw hh
    rw [lineRect_of_minmax pts tail x_min x_max y_min y_max hx hX hy hY,
      if_neg (by omega), if_neg (by omega)]
  have hall : drawRects (Json.obj [("result", Json.arr [Json.arr items])])
      = Except.ok (items.filterMap (fun item =>
          match lineRect item with
          | Except.ok o => o
          | Except.error _ => none)) := by
    show pageRects items = _
    exact pageRects_eq_filterMap items hsafe
  refine ⟨hline, hall, ?_⟩
  intro decode parseJson parseF32 bytes img ocr_json dropField hdec hparse
  simp only [drawHandler, hdec, hparse, hall]

/-- A line whose polygon envelope is the rectangle at (0, 0) of size 2 by 3. -/
def drawLineEx1 : Json :=
  Json.arr [Json.arr [Json.arr [Json.num 0, Json.num 0], Json.arr [Json.num 2, Json.num 3]],
    Json.arr [Json.str "t", Json.num (1 / 2)]]

/-- A line whose polygon envelope is the rectangle at (10, 20) of size 5 by 1. -/
def drawLineEx2 : Json :=
  Json.arr [Json.arr [Json.arr [Json.num 15, Json.num 21], Json.arr [Json.num 10, Json.num 20]],
    Json.arr [Json.str "u", Json.num (9 / 10)]]

/-- Witness for C4 at a concrete mixed page: a malformed string line and a
line with an empty polygon are skipped, while each qualifying line yields
exactly its envelope rectangle, in line order. -/
theorem draw_envelope_rect_per_line_witness :
    (∀ item ∈ [Json.str "x", drawLineEx1, Json.arr [Json.arr []], drawLineEx2],
        (lineRect item).isOk = true)
    ∧ drawRects (Json.obj [("result", Json.arr
        [Json.arr [Json.str "x", drawLineEx1, Json.arr [Json.arr []], drawLineEx2]])])
        = Except.ok [Rect.mk 0 0 2 3, Rect.mk 10 20 5 1]
    ∧ lineRect drawLineEx1 = Except.ok (some (Rect.mk 0 0 2 3)) := by
  have hsafe : ∀ item ∈ [Json.str "x", drawLineEx1, Json.arr [Json.arr []], drawLineEx2],
      (lineRect item).isOk = true := by
    intro item hitem
    fin_cases hitem <;> rfl
  have h := draw_envelope_rect_per_line
    [Json.str "x", drawLineEx1, Json.arr [Json.arr []], drawLineEx2] hsafe
  exact ⟨hsafe, h.2.1,
    h.1 [Json.arr [Json.num 0, Json.num 0], Json.arr [Json.num 2, Json.num 3]]
      [Json.arr [Json.str "t", Json.num (1 / 2)]] 0 2 0 3
      rfl rfl rfl rfl (by decide) (by decide)⟩

end OcrService
